import Mathlib

/-!
# Verification of the ai-agent-observability investigation engine

Shallow embedding, in Lean 4, of the parts of the repository
`ai_agent_monitoring` that the specification's claims are about:

* `tools/query_validator.py` — the PromQL/LogQL query validator and
  auto-corrector (`QueryValidator`);
* `agents/orchestrator.py` — the workflow state machine
  (`OrchestratorAgent`): query-list validation, time-range resolution,
  plan parsing, result evaluation, and the iteration loop guard;
* `agents/rca_agent.py` — report parsing (`RCAAgent._parse_report`);
* `tools/base.py` — the MCP client's retry behaviour (`call_tool`,
  `call_tool_with_session`, `_extract_result`);
* `tools/registry.py` — the capability registry (`MCPConnection`,
  `ToolRegistry`).

Strings are modelled as `List Char` (`Str` below) so every function is
structurally recursive and computable by `decide`.  Python regular
expressions used by the source are embedded as dedicated character-level
scanners, one per pattern, faithful to the pattern's semantics on the
inputs the source feeds it.  Timestamps (`datetime`) are modelled as
integers (seconds), `timedelta(minutes=30)` as `1800` and
`timedelta(hours=1)` as `3600`.
-/

namespace AIAgentMonitoring

/-- Strings as explicit character lists, so all operations reduce. -/
abbrev Str := List Char

/-- Python `str.isspace` characters relevant to `str.strip()` / `\s`. -/
def isPySpace (c : Char) : Bool :=
  c = ' ' ∨ c = '\t' ∨ c = '\n' ∨ c = '\r' ∨ c = '\x0b' ∨ c = '\x0c'

/-- Python `str.strip()`: drop whitespace from both ends. -/
def pyStrip (s : Str) : Str :=
  ((s.dropWhile isPySpace).reverse.dropWhile isPySpace).reverse

/-- ASCII upper-casing of one character (Python `str.upper` on ASCII). -/
def upChar (c : Char) : Char :=
  if 'a' ≤ c ∧ c ≤ 'z' then Char.ofNat (c.toNat - 32) else c

/-- ASCII upper-casing of a string. -/
def upStr (s : Str) : Str := s.map upChar

/-- Regex `\w` (ASCII): letters, digits, underscore. -/
def isWordChar (c : Char) : Bool :=
  ('a' ≤ c ∧ c ≤ 'z') ∨ ('A' ≤ c ∧ c ≤ 'Z') ∨ ('0' ≤ c ∧ c ≤ '9') ∨ c = '_'

/-- ASCII decimal digit. -/
def isDigitCh (c : Char) : Bool := '0' ≤ c ∧ c ≤ '9'

/-- Does `pat` occur as a contiguous substring of `s` (Python `in`)? -/
def containsSub (pat : Str) : Str → Bool
  | [] => pat.isPrefixOf []
  | c :: rest => pat.isPrefixOf (c :: rest) || containsSub pat rest

/-- Index of the first occurrence of `pat` in `s` (Python `str.index`,
returning `none` instead of raising `ValueError`). -/
def findSub (pat : Str) : Str → Option Nat
  | [] => if pat.isPrefixOf ([] : Str) then some 0 else none
  | c :: rest =>
    if pat.isPrefixOf (c :: rest) then some 0
    else (findSub pat rest).map (· + 1)

/-- Index of the last occurrence of `pat` in `s` (Python `str.rindex`,
returning `none` instead of raising `ValueError`). -/
def rfindSub (pat s : Str) : Option Nat :=
  (findSub pat.reverse s.reverse).map
    (fun i => s.length - pat.length - i)

/-- Python slice `s[a:b]` on character lists. -/
def slice (s : Str) (a b : Nat) : Str := (s.take b).drop a

/-- Python `str.split(sep)` for a one-character separator. -/
def splitOnCh (sep : Char) (s : Str) : List Str :=
  go s [] where
  go : Str → Str → List Str
    | [], acc => [acc.reverse]
    | c :: rest, acc =>
      if c = sep then acc.reverse :: go rest []
      else go rest (c :: acc)

/-- Count occurrences of a character (Python `str.count`). -/
def countCh (c : Char) (s : Str) : Nat := (s.filter (· = c)).length

/-- ASCII lower-casing of one character (Python `str.lower` on ASCII). -/
def lowChar (c : Char) : Char :=
  if 'A' ≤ c ∧ c ≤ 'Z' then Char.ofNat (c.toNat + 32) else c

/-- ASCII lower-casing of a string. -/
def lowStr (s : Str) : Str := s.map lowChar

/-! ## `tools/query_validator.py` — character-level models of the regexes

Each Python regular expression used by `QueryValidator` is embedded as a
dedicated scanner over `List Char`, faithful to the pattern's semantics
(leftmost match, greedy quantifiers, `re.IGNORECASE` where the source
passes it). -/

/-- Does the regex `\bW\b` (case-insensitive) match at the *start* of `s`?
`w` is given upper-cased; the right boundary requires the character after
the matched word, if any, to be a non-word character. -/
def atWordCI (w s : Str) : Bool :=
  upStr (s.take w.length) = w &&
    (match s.drop w.length with
     | [] => true
     | c :: _ => !isWordChar c)

/-- `re.search(r"\bW\b", s, re.IGNORECASE)` for an alphabetic word `w`
(given upper-cased): scan every position, requiring a left word boundary
(`prev` is the character before the current position). -/
def searchWordCI (w : Str) : Option Char → Str → Bool
  | _, [] => false
  | prev, c :: rest =>
    ((match prev with
      | none => true
      | some p => !isWordChar p) && atWordCI w (c :: rest))
    || searchWordCI w (some c) rest

/-- Does the regex `OP\s*['\"]` match at the start of `s` (`OP` a literal
operator such as `>=`)? -/
def atOpQuote (op s : Str) : Bool :=
  op.isPrefixOf s &&
    (match (s.drop op.length).dropWhile isPySpace with
     | [] => false
     | c :: _ => c = '\'' || c = '"')

/-- `re.search(r"OP\s*['\"]", s)`: scan every position. -/
def searchOpQuote (op : Str) : Str → Bool
  | [] => false
  | c :: rest => atOpQuote op (c :: rest) || searchOpQuote op rest

/-- The SQL-style syntax fragments `QueryValidator.SQL_PATTERNS` detects. -/
inductive SqlPat
  | sqlAnd | sqlOr | sqlSelect | sqlFrom | sqlWhere
  | geWithQuotes | leWithQuotes
deriving DecidableEq, Repr

/-- All `SQL_PATTERNS` hits on `s`, in the source's order.  Each hit
produces one error (the Japanese message text is abstracted into the
`SqlPat` value naming the pattern). -/
def sqlPatternHits (s : Str) : List SqlPat :=
  (if searchWordCI ("AND".data) none s then [SqlPat.sqlAnd] else [])
  ++ (if searchWordCI ("OR".data) none s then [SqlPat.sqlOr] else [])
  ++ (if searchWordCI ("SELECT".data) none s then [SqlPat.sqlSelect] else [])
  ++ (if searchWordCI ("FROM".data) none s then [SqlPat.sqlFrom] else [])
  ++ (if searchWordCI ("WHERE".data) none s then [SqlPat.sqlWhere] else [])
  ++ (if searchOpQuote (">=".data) s then [SqlPat.geWithQuotes] else [])
  ++ (if searchOpQuote ("<=".data) s then [SqlPat.leWithQuotes] else [])

/-- Validation errors reported by `QueryValidator` (message text
abstracted into constructors; the payload is the datum interpolated into
the source's message). -/
inductive QError
  | emptyQuery
  | sqlSyntax (p : SqlPat)
  | aggregationNeedsParens (fn : Str)
  | invalidMetricName (tok : Str)
  | invalidLabelMatcher (m : Str)
  | noLabelSelector
  | emptyLabelSelector
  | timeRangeInQuery
  | unbalancedParens
  | unbalancedBraces
  | unbalancedBrackets
deriving DecidableEq, Repr

/-- Validation warnings reported by `QueryValidator`. -/
inductive QWarning
  | rangeFnNeedsDuration (fn : Str)
  | singleQuoteRecommend (m : Str)
  | autoCorrectionAttempted (corrected : Str)
  | unknownPipelineStage (stage : Str)
  | doubleBracesCollapsed
  | grafanaVariableDetected
deriving DecidableEq, Repr

/-- `ValidationResult` dataclass (after `__post_init__`, `errors` and
`warnings` are always lists, so they are plain lists here). -/
structure ValidationResult where
  is_valid : Bool
  original_query : Str
  corrected_query : Option Str
  errors : List QError
  warnings : List QWarning
deriving DecidableEq, Repr

/-- `PROMQL_METRIC_PATTERN.match(tok)` for `^[a-zA-Z_:][a-zA-Z0-9_:]*`:
succeeds exactly when `tok` is non-empty and its head is in the leading
class. -/
def promqlMetricMatch : Str → Bool
  | [] => false
  | c :: _ =>
    ('a' ≤ c ∧ c ≤ 'z') ∨ ('A' ≤ c ∧ c ≤ 'Z') ∨ c = '_' ∨ c = ':'

/-- `LOGQL_LABEL_SELECTOR.match(s)` for `^\s*\{[^}]*\}`: optional leading
whitespace, then `{`, then a (possibly empty) run of non-`}` characters
closed by `}`.  The match exists iff, after the whitespace, the string
starts with `{` and a `}` occurs later. -/
def logqlLabelSelectorMatch (s : Str) : Bool :=
  match s.dropWhile isPySpace with
  | '{' :: rest => rest.any (· = '}')
  | _ => false

/-- `re.search(r"\{([^}]*)\}", s)`: content of the first `{...}` group.
The regex matches iff some `{` is followed by a later `}`; the leftmost
match starts at the first `{` (if the first `{` has no `}` after it, no
later `{` has one either), capturing up to the first subsequent `}`. -/
def firstBraceContent : Str → Option Str
  | [] => none
  | c :: rest =>
    if c = '{' then
      if rest.any (· = '}') then some (rest.takeWhile (· ≠ '}')) else none
    else firstBraceContent rest

/-- Head character of the label-matcher identifier class `[a-zA-Z_]`. -/
def identHead (c : Char) : Bool :=
  ('a' ≤ c ∧ c ≤ 'z') ∨ ('A' ≤ c ∧ c ≤ 'Z') ∨ c = '_'

/-- Tail characters of the identifier class `[a-zA-Z0-9_]`. -/
def identTail (c : Char) : Bool :=
  ('a' ≤ c ∧ c ≤ 'z') ∨ ('A' ≤ c ∧ c ≤ 'Z') ∨ ('0' ≤ c ∧ c ≤ '9') ∨ c = '_'

/-- The matcher operator group `(!?=~?)`: `=`, `=~`, `!=` or `!=~`
(longest first, as the greedy optional quantifiers choose). -/
def parseMatcherOp : Str → Option Str
  | '!' :: '=' :: '~' :: r => some r
  | '!' :: '=' :: r => some r
  | '=' :: '~' :: r => some r
  | '=' :: r => some r
  | _ => none

/-- Is `c` one of the quote characters of the class `["\']`? -/
def isQuoteCh (c : Char) : Bool := c = '"' || c = '\''

/-- Full match of `^[a-zA-Z_][a-zA-Z0-9_]*\s*(!?=~?)\s*["\'][^"\']*["\']$`
on one matcher.  Note the source's closing-quote class admits either
quote, so a matcher may open with `"` and close with `'`. -/
def labelMatcherValid : Str → Bool
  | [] => false
  | c :: rest =>
    identHead c &&
      (let r2 := (rest.dropWhile identTail).dropWhile isPySpace
       match parseMatcherOp r2 with
       | none => false
       | some r3 =>
         match r3.dropWhile isPySpace with
         | q :: body =>
           isQuoteCh q &&
             (match body.dropWhile (fun d => !isQuoteCh d) with
              | q2 :: tail => isQuoteCh q2 && tail.isEmpty
              | [] => false)
         | [] => false)

/-- `QueryValidator._validate_label_matchers`: split the `{...}` content
on commas, strip, drop empties, and classify each matcher.  Returns the
`(errors, warnings)` this pass appends. -/
def _validate_label_matchers (label_content : Str) : List QError × List QWarning :=
  let matchers := ((splitOnCh ',' label_content).map pyStrip).filter (· ≠ [])
  matchers.foldr
    (fun m (acc : List QError × List QWarning) =>
      if labelMatcherValid m then acc
      else if containsSub ("='".data) m || containsSub ("= '".data) m then
        (acc.1, QWarning.singleQuoteRecommend m :: acc.2)
      else (QError.invalidLabelMatcher m :: acc.1, acc.2))
    ([], [])

/-- Does `W\s*[<>=]` match at the start of `s` (`w` pre-upper-cased,
compared case-insensitively)? -/
def atSubCIThenOp (w s : Str) : Bool :=
  upStr (s.take w.length) = w && w.length ≤ s.length &&
    (match (s.drop w.length).dropWhile isPySpace with
     | [] => false
     | c :: _ => c = '<' || c = '>' || c = '=')

/-- `re.search(r"W\s*[<>=]", s, re.IGNORECASE)` (no word boundaries). -/
def searchSubCIThenOp (w : Str) : Str → Bool
  | [] => false
  | c :: rest => atSubCIThenOp w (c :: rest) || searchSubCIThenOp w rest

/-- Does `\d{4}-\d{2}-\d{2}T\d{2}:\d{2}` (with `re.IGNORECASE`, so `t`
also matches) match at the start of `s`? -/
def atDatePattern : Str → Bool
  | a :: b :: c :: d :: '-' :: e :: f :: '-' :: g :: h :: t :: i :: j :: ':' :: k :: l :: _ =>
    (t = 'T' || t = 't') && [a, b, c, d, e, f, g, h, i, j, k, l].all isDigitCh
  | _ => false

/-- Scanning search for the timestamp-literal pattern. -/
def searchDatePattern : Str → Bool
  | [] => false
  | c :: rest => atDatePattern (c :: rest) || searchDatePattern rest

/-- The `time_patterns` loop of `validate_logql`: one error (then
`break`) if any of the four patterns matches. -/
def logqlTimePatternHit (s : Str) : Bool :=
  searchSubCIThenOp ("LOG_TIME".data) s
  || searchSubCIThenOp ("TIMESTAMP".data) s
  || searchSubCIThenOp ("@TIMESTAMP".data) s
  || searchDatePattern s

/-- `QueryValidator.PROMQL_AGGREGATIONS`. -/
def PROMQL_AGGREGATIONS : List Str :=
  ["sum", "min", "max", "avg", "count", "stddev", "stdvar",
   "topk", "bottomk", "count_values", "quantile"].map String.data

/-- `QueryValidator.PROMQL_RANGE_FUNCTIONS`. -/
def PROMQL_RANGE_FUNCTIONS : List Str :=
  ["rate", "irate", "increase", "delta", "idelta",
   "deriv", "predict_linear", "changes", "resets",
   "avg_over_time", "min_over_time", "max_over_time",
   "sum_over_time", "count_over_time", "stddev_over_time",
   "stdvar_over_time", "last_over_time", "present_over_time",
   "quantile_over_time", "absent_over_time"].map String.data

/-- `corrected.split("(")[0].split("{")[0].strip()`. -/
def firstTokenOf (s : Str) : Str :=
  pyStrip ((s.takeWhile (· ≠ '(')).takeWhile (· ≠ '{'))

/-- `QueryValidator.validate_promql`. -/
def validate_promql (query : Str) : ValidationResult :=
  let corrected := pyStrip query
  if corrected = [] then
    { is_valid := false, original_query := query, corrected_query := none
      errors := [QError.emptyQuery], warnings := [] }
  else
    let sqlErrs := (sqlPatternHits corrected).map QError.sqlSyntax
    let first_token := firstTokenOf corrected
    let structural : List QError × List QWarning :=
      if PROMQL_AGGREGATIONS.contains (lowStr first_token) then
        (if corrected.any (· = '(') then ([], [])
         else ([QError.aggregationNeedsParens first_token], []))
      else if PROMQL_RANGE_FUNCTIONS.contains (lowStr first_token) then
        (if corrected.any (· = '[') then ([], [])
         else ([], [QWarning.rangeFnNeedsDuration first_token]))
      else if promqlMetricMatch first_token then ([], [])
      else ([QError.invalidMetricName first_token], [])
    let labels : List QError × List QWarning :=
      if corrected.any (· = '{') then
        match firstBraceContent corrected with
        | some content => _validate_label_matchers content
        | none => ([], [])
      else ([], [])
    let balance : List QError :=
      (if countCh '(' corrected = countCh ')' corrected then []
       else [QError.unbalancedParens])
      ++ (if countCh '{' corrected = countCh '}' corrected then []
          else [QError.unbalancedBraces])
      ++ (if countCh '[' corrected = countCh ']' corrected then []
          else [QError.unbalancedBrackets])
    let errors := sqlErrs ++ structural.1 ++ labels.1 ++ balance
    { is_valid := errors.isEmpty
      original_query := query
      corrected_query := if corrected = query then none else some corrected
      errors := errors
      warnings := structural.2 ++ labels.2 }

/-! ### `_attempt_logql_correction` — the three `re.sub` passes

Each pass is a leftmost, non-overlapping scan (`scanSub`).  Each
successful match consumes at least one character, so a fuel of the input
length is sufficient for the scan to traverse the whole string. -/

/-- Generic leftmost non-overlapping substitution scan: at every position
try `step`; on a match emit the replacement and resume after the consumed
characters, otherwise keep one character and move on. -/
def scanSub (step : Str → Option (Str × Str)) : Nat → Str → Str
  | 0, s => s
  | _ + 1, [] => []
  | fuel + 1, c :: rest =>
    match step (c :: rest) with
    | some (repl, rest') => repl ++ scanSub step fuel rest'
    | none => c :: scanSub step fuel rest

/-- One match of `(\w+)\s*=\s*'([^']*)'` at the start of `s`, returning
the replacement `\1="\2"` and the remainder.  The greedy `\w+` must take
the whole word run (a shorter run would leave a word character where
`\s*=` is required). -/
def quoteSubStep (s : Str) : Option (Str × Str) :=
  let ident := s.takeWhile isWordChar
  if ident = [] then none
  else
    match ((s.drop ident.length).dropWhile isPySpace) with
    | '=' :: r =>
      match r.dropWhile isPySpace with
      | '\'' :: b =>
        let body := b.takeWhile (· ≠ '\'')
        match b.drop body.length with
        | '\'' :: rest' =>
          some (ident ++ '=' :: '"' :: body ++ ['"'], rest')
        | _ => none
      | _ => none
    | _ => none

/-- One match of `\s+AND\s+` (`re.IGNORECASE`) at the start of `s`,
returning the replacement `", "` and the remainder after the greedy
trailing whitespace run. -/
def andSubStep (s : Str) : Option (Str × Str) :=
  let sp := s.takeWhile isPySpace
  if sp = [] then none
  else
    let afterSp := s.drop sp.length
    if upStr (afterSp.take 3) = "AND".data then
      let rest := afterSp.drop 3
      let sp2 := rest.takeWhile isPySpace
      if sp2 = [] then none
      else some (", ".data, rest.drop sp2.length)
    else none

/-- One match of `,?\s*\w*time\w*\s*[<>=]+\s*['\"][^'\"]*['\"]`
(`re.IGNORECASE`) at the start of `s`; the replacement is empty.  The
word run must contain `time` (case-insensitively), and both `\w*` pieces
together consume exactly the maximal word run (a shorter run would leave
a word character where `\s*[<>=]` is required). -/
def timeSubStep (s : Str) : Option (Str × Str) :=
  let s1 := match s with
    | ',' :: r => r
    | _ => s
  let s2 := s1.dropWhile isPySpace
  let run := s2.takeWhile isWordChar
  if containsSub ("TIME".data) (upStr run) then
    let s3 := (s2.drop run.length).dropWhile isPySpace
    let ops := s3.takeWhile (fun c => c = '<' || c = '>' || c = '=')
    if ops = [] then none
    else
      match (s3.drop ops.length).dropWhile isPySpace with
      | q :: b =>
        if isQuoteCh q then
          let body := b.takeWhile (fun d => !isQuoteCh d)
          match b.drop body.length with
          | q2 :: rest' => if isQuoteCh q2 then some ([], rest') else none
          | [] => none
        else none
      | [] => none
  else none

/-- `QueryValidator._attempt_logql_correction`. -/
def _attempt_logql_correction (query : Str) : Str :=
  let c1 := scanSub quoteSubStep query.length query
  let c2 := scanSub andSubStep c1.length c1
  let c3 := scanSub timeSubStep c2.length c2
  let c4 :=
    match pyStrip c3 with
    | '{' :: _ => c3
    | _ => '{' :: (pyStrip c3 ++ ['}'])
  if pyStrip c4 = ['{', '}'] then query else c4

/-- `re.sub(r"^\s*\{[^}]*\}", "", query)`: remove a leading
whitespace-plus-label-selector block, if the anchored pattern matches. -/
def stripLeadingSelector (q : Str) : Str :=
  match q.dropWhile isPySpace with
  | '{' :: rest =>
    if rest.any (· = '}') then (rest.dropWhile (· ≠ '}')).tail else q
  | _ => q

/-- `QueryValidator._validate_logql_pipeline` (appends warnings only).
Note the enumerate index is taken before empty stages are skipped, so
only a non-empty *first* split element is checked. -/
def _validate_logql_pipeline (query : Str) : List QWarning :=
  let after_selector := pyStrip (stripLeadingSelector query)
  if after_selector = [] then []
  else
    ((splitOnCh '|' after_selector).enum.filterMap fun p =>
      let stage := pyStrip p.2
      if stage = [] then none
      else if p.1 = 0 then
        match stage with
        | c :: _ =>
          if c = '=' || c = '~' || c = '!' then none
          else some (QWarning.unknownPipelineStage stage)
        | [] => none
      else none)

/-- `QueryValidator.validate_logql`. -/
def validate_logql (query : Str) : ValidationResult :=
  let stripped := pyStrip query
  if stripped = [] then
    { is_valid := false, original_query := query, corrected_query := none
      errors := [QError.emptyQuery], warnings := [] }
  else
    let sqlErrs := (sqlPatternHits stripped).map QError.sqlSyntax
    let selector : List QError × Str × List QWarning :=
      if logqlLabelSelectorMatch stripped then ([], stripped, [])
      else
        let corr := _attempt_logql_correction stripped
        ([QError.noLabelSelector], corr,
         if corr ≠ stripped then [QWarning.autoCorrectionAttempted corr] else [])
    let corrected := selector.2.1
    let labels : List QError × List QWarning :=
      match firstBraceContent corrected with
      | some content =>
        if pyStrip content = [] then ([QError.emptyLabelSelector], [])
        else _validate_label_matchers content
      | none => ([], [])
    let timeErrs : List QError :=
      if logqlTimePatternHit corrected then [QError.timeRangeInQuery] else []
    let balance : List QError :=
      if countCh '{' corrected = countCh '}' corrected then []
      else [QError.unbalancedBraces]
    let pipeWarns : List QWarning :=
      if corrected.any (· = '|') then _validate_logql_pipeline corrected else []
    let errors := sqlErrs ++ selector.1 ++ labels.1 ++ timeErrs ++ balance
    { is_valid := errors.isEmpty
      original_query := query
      corrected_query := if corrected = pyStrip query then none else some corrected
      errors := errors
      warnings := selector.2.2 ++ labels.2 ++ pipeWarns }

/-- `QueryType` enum. -/
inductive QueryType
  | promql
  | logql
deriving DecidableEq, Repr

/-- `QueryValidator.validate`: dispatch on the query type. -/
def validate (query : Str) (query_type : QueryType) : ValidationResult :=
  match query_type with
  | .promql => validate_promql query
  | .logql => validate_logql query

/-- `QueryValidator.validate_and_fix`: validate, and if invalid but a
corrected query exists, re-validate the correction; trust it only if the
re-validation passes, otherwise report the original failure. -/
def validate_and_fix (query : Str) (query_type : QueryType) :
    Str × ValidationResult :=
  let result := validate query query_type
  if result.is_valid then (query, result)
  else
    match result.corrected_query with
    | some cq =>
      let corrected_result := validate cq query_type
      if corrected_result.is_valid then (cq, corrected_result)
      else (query, result)
    | none => (query, result)

/-! ## JSON values and a model of Python's `json.loads`

The orchestrator and the RCA agent parse LLM output with the standard
library's `json.loads`.  `Json` is the value domain; `json_loads` is an
executable recursive-descent model of the stdlib parser (numbers without
exponents and strings without `\uXXXX` escapes, which is all the engine's
inputs use). -/

inductive Json
  | null
  | bool (b : Bool)
  | num (q : Rat)
  | str (s : Str)
  | arr (items : List Json)
  | obj (fields : List (Str × Json))

/-- JSON whitespace accepted between tokens by `json.loads`. -/
def isJsonWs (c : Char) : Bool :=
  c = ' ' || c = '\t' || c = '\n' || c = '\r'

/-- The JSON string escape table (`\uXXXX` unsupported in this model):
each pair maps the character after the backslash to the escaped
character. -/
def jsonEscapePairs : List (Char × Char) :=
  [('"', '"'), ('\\', '\\'), ('/', '/'), ('n', '\n'), ('t', '\t'),
   ('r', '\r'), ('b', '\x08'), ('f', '\x0c')]

/-- Look up one escape character. -/
def jsonEscChar (e : Char) : Option Char :=
  (jsonEscapePairs.find? (fun p => p.1 = e)).map (fun p => p.2)

/-- Body of a JSON string after the opening quote. -/
def parseJsonStringBody : Str → Option (Str × Str)
  | [] => none
  | '"' :: r => some ([], r)
  | '\\' :: e :: r =>
    match jsonEscChar e with
    | some c => (parseJsonStringBody r).map (fun p => (c :: p.1, p.2))
    | none => none
  | c :: r => (parseJsonStringBody r).map (fun p => (c :: p.1, p.2))

/-- Decimal digits to a natural number. -/
def digitsToNat (ds : Str) : Nat :=
  ds.foldl (fun n c => n * 10 + (c.toNat - 48)) 0

/-- Unsigned part of a JSON number, `\d+(\.\d+)?`. -/
def parseJsonNumCore (u : Str) : Option (Rat × Str) :=
  let ds := u.takeWhile isDigitCh
  if ds.isEmpty then none
  else
    let rest := u.drop ds.length
    let ip : Rat := (digitsToNat ds : Rat)
    match rest with
    | '.' :: fr =>
      let fs := fr.takeWhile isDigitCh
      if fs.isEmpty then none
      else some (ip + (digitsToNat fs : Rat) / ((10 : Rat) ^ fs.length),
        fr.drop fs.length)
    | _ => some (ip, rest)

/-- A JSON number `-?\d+(\.\d+)?` (exponents unsupported in this model). -/
def parseJsonNumber (s : Str) : Option (Json × Str) :=
  match s with
  | '-' :: r => (parseJsonNumCore r).map (fun p => (Json.num (-p.1), p.2))
  | _ => (parseJsonNumCore s).map (fun p => (Json.num p.1, p.2))

mutual

/-- One JSON value (fuelled recursive descent; the fuel is decremented on
every nested value, so input length plus one is always sufficient). -/
def parseJsonValue : Nat → Str → Option (Json × Str)
  | 0, _ => none
  | fuel + 1, s =>
    let t := s.dropWhile isJsonWs
    if ("null".data).isPrefixOf t then some (Json.null, t.drop 4)
    else if ("true".data).isPrefixOf t then some (Json.bool true, t.drop 4)
    else if ("false".data).isPrefixOf t then some (Json.bool false, t.drop 5)
    else
      match t with
      | '"' :: r => (parseJsonStringBody r).map (fun p => (.str p.1, p.2))
      | '[' :: r =>
        (match r.dropWhile isJsonWs with
         | ']' :: r' => some (.arr [], r')
         | _ => (parseJsonArrItems fuel r).map (fun p => (.arr p.1, p.2)))
      | '{' :: r =>
        (match r.dropWhile isJsonWs with
         | '}' :: r' => some (.obj [], r')
         | _ => (parseJsonObjItems fuel r).map (fun p => (.obj p.1, p.2)))
      | u => parseJsonNumber u

/-- Comma-separated array items up to the closing bracket. -/
def parseJsonArrItems : Nat → Str → Option (List Json × Str)
  | 0, _ => none
  | fuel + 1, s =>
    match parseJsonValue fuel s with
    | none => none
    | some (v, r) =>
      match r.dropWhile isJsonWs with
      | ',' :: r' =>
        (parseJsonArrItems fuel r').map (fun p => (v :: p.1, p.2))
      | ']' :: r' => some ([v], r')
      | _ => none

/-- Comma-separated `"key": value` members up to the closing brace. -/
def parseJsonObjItems : Nat → Str → Option (List (Str × Json) × Str)
  | 0, _ => none
  | fuel + 1, s =>
    match s.dropWhile isJsonWs with
    | '"' :: r =>
      match parseJsonStringBody r with
      | none => none
      | some (k, r1) =>
        match r1.dropWhile isJsonWs with
        | ':' :: r2 =>
          match parseJsonValue fuel r2 with
          | none => none
          | some (v, r3) =>
            match r3.dropWhile isJsonWs with
            | ',' :: r4 =>
              (parseJsonObjItems fuel r4).map (fun p => ((k, v) :: p.1, p.2))
            | '}' :: r4 => some ([(k, v)], r4)
            | _ => none
        | _ => none
    | _ => none

end

/-- Model of Python `json.loads`: a single value with only whitespace
after it. -/
def json_loads (s : Str) : Option Json :=
  match parseJsonValue (s.length + 1) s with
  | some (v, rest) => if rest.dropWhile isJsonWs = [] then some v else none
  | none => none

/-- Read a key from a parsed JSON object, as a Python `dict` built by
`json.loads` would hold it (a duplicate key keeps the last value). -/
def dictGet (d : List (Str × Json)) (k : Str) : Option Json :=
  ((d.filter (fun p => p.1 = k)).getLast?).map (fun p => p.2)

/-- `key in data`. -/
def dictContains (d : List (Str × Json)) (k : Str) : Bool :=
  (dictGet d k).isSome

/-- `data.pop(key)` / `del data[key]` (value side handled by `dictGet`). -/
def dictRemove (d : List (Str × Json)) (k : Str) : List (Str × Json) :=
  d.filter (fun p => p.1 ≠ k)

/-- `data[key] = value` for a key not currently present (the only way the
source uses it): appended in insertion order. -/
def dictSet (d : List (Str × Json)) (k : Str) (v : Json) :
    List (Str × Json) :=
  dictRemove d k ++ [(k, v)]

/-! ## `core/state.py` — data model

Timestamps (`datetime`) are modelled as integers: the count of seconds.
`timedelta(minutes=30)` is `1800`, `timedelta(hours=1)` is `3600`. -/

/-- `TimeRange` (a plain pydantic model: both fields required, no
validator relates them). -/
structure TimeRange where
  start : Int
  «end» : Int
deriving DecidableEq, Repr

/-- `InvestigationPlan` with its pydantic defaults. -/
structure InvestigationPlan where
  prometheus_datasource_uid : Str := []
  loki_datasource_uid : Str := []
  promql_queries : List Str := []
  logql_queries : List Str := []
  target_instances : List Str := []
  time_range : Option TimeRange := none
deriving DecidableEq, Repr

/-- `TriggerType` enum from `core/models.py`. -/
inductive TriggerType
  | alert
  | user_query
deriving DecidableEq, Repr

/-- The `Alert` fields the orchestrator's time-range resolution reads. -/
structure Alert where
  starts_at : Int
  ends_at : Option Int
deriving DecidableEq, Repr

/-- The `UserQuery` fields the orchestrator's time-range resolution
reads. -/
structure UserQuery where
  time_range_start : Option Int
  time_range_end : Option Int
deriving DecidableEq, Repr

/-- `EvaluationFeedback`.  `missing_information`,
`additional_investigation_points` and `reasoning` hold whatever JSON
value `data.get` returned (pydantic does not validate on assignment, so
the parser stores the raw value); `previous_queries_attempted` is the
list of strings the orchestrator passes in. -/
structure EvaluationFeedback where
  missing_information : Json := Json.arr []
  additional_investigation_points : Json := Json.arr []
  previous_queries_attempted : List Str := []
  reasoning : Json := Json.str []

/-! ## Model of Python `datetime.fromisoformat`

Restricted to strings of the exact shape `YYYY-MM-DDTHH:MM:SS` (the shape
used throughout this development); any other string is rejected.  The
returned integer is a monotone encoding of the field tuple, so
comparisons between two accepted timestamps agree with the real
timestamp order. -/

def fromisoformat (s : Str) : Option Int :=
  match s with
  | [y1, y2, y3, y4, '-', m1, m2, '-', d1, d2, 'T',
     h1, h2, ':', n1, n2, ':', c1, c2] =>
    if [y1, y2, y3, y4, m1, m2, d1, d2, h1, h2, n1, n2, c1, c2].all isDigitCh
    then
      let y := digitsToNat [y1, y2, y3, y4]
      let mo := digitsToNat [m1, m2]
      let d := digitsToNat [d1, d2]
      let h := digitsToNat [h1, h2]
      let mi := digitsToNat [n1, n2]
      let sec := digitsToNat [c1, c2]
      if 1 ≤ mo ∧ mo ≤ 12 ∧ 1 ≤ d ∧ d ≤ 31 ∧ h ≤ 23 ∧ mi ≤ 59 ∧ sec ≤ 59
      then some ((((((y * 12 + mo) * 31 + d) * 24 + h) * 60 + mi) * 60 + sec : Nat) : Int)
      else none
    else none
  | _ => none

/-! ## `agents/orchestrator.py` -/

/-- `OrchestratorAgent._extract_json`.  `none` models the final
`ValueError`; the intermediate `text.index` failures fall through to the
next strategy exactly as the source's `try/except ValueError: pass`
does. -/
def _extract_json (text : Str) : Option Str :=
  let viaJsonFence : Option Str :=
    match findSub ("```json".data) text with
    | none => none
    | some i =>
      let start := i + 7
      match findSub ("```".data) (text.drop start) with
      | none => none
      | some j => some (pyStrip (slice text start (start + j)))
  match viaJsonFence with
  | some r => some r
  | none =>
    let viaFence : Option Str :=
      match findSub ("```".data) text with
      | none => none
      | some i =>
        let skipped := ((text.drop (i + 3)).takeWhile
          (fun c => c = '\n' || c = '\r')).length
        let start := i + 3 + skipped
        match findSub ("```".data) (text.drop start) with
        | none => none
        | some j =>
          let candidate := pyStrip (slice text start (start + j))
          match candidate with
          | '{' :: _ => some candidate
          | _ => none
    match viaFence with
    | some r => some r
    | none =>
      if text.any (· = '{') && text.any (· = '}') then
        match findSub (['{']) text, rfindSub (['}']) text with
        | some a, some b => some (slice text a (b + 1))
        | _, _ => none
      else none

/-- The plan keys `_unwrap_nested_plan` looks for. -/
def planKeys : List Str :=
  ["promql_queries", "logql_queries", "promql", "logql"].map String.data

/-- `OrchestratorAgent._unwrap_nested_plan`. -/
def _unwrap_nested_plan (data : List (Str × Json)) : List (Str × Json) :=
  if planKeys.any (fun k => dictContains data k) then data
  else
    match (data.filterMap fun p =>
      match p.2 with
      | Json.obj inner =>
        if planKeys.any (fun k => dictContains inner k) then some inner
        else none
      | _ => none).head? with
    | some inner => inner
    | none => data

/-- `OrchestratorAgent._PLAN_FIELD_ALIASES`, in insertion order. -/
def _PLAN_FIELD_ALIASES : List (Str × Str) :=
  [("promql", "promql_queries"),
   ("logql", "logql_queries"),
   ("prometheus_queries", "promql_queries"),
   ("loki_queries", "logql_queries"),
   ("instances", "target_instances"),
   ("targets", "target_instances")].map
    (fun p => (p.1.data, p.2.data))

/-- The alias-conversion loop of `_parse_plan`: for each alias present
while its canonical name is absent, `data[canonical] = data.pop(alias)`. -/
def applyPlanAliases (data : List (Str × Json)) : List (Str × Json) :=
  _PLAN_FIELD_ALIASES.foldl
    (fun d al =>
      match dictGet d al.1 with
      | some v =>
        if dictContains d al.2 then d
        else dictSet (dictRemove d al.1) al.2 v
      | none => d)
    data

/-- The string-to-list coercion loop of `_parse_plan`: a query field that
is a string becomes a one-element list (or empty, if blank). -/
def coerceStrFieldsToList (data : List (Str × Json)) : List (Str × Json) :=
  (["promql_queries", "logql_queries", "target_instances"].map
    String.data).foldl
    (fun d k =>
      match dictGet d k with
      | some (Json.str v) =>
        dictSet (dictRemove d k) k
          (if pyStrip v = [] then Json.arr [] else Json.arr [Json.str v])
      | _ => d)
    data

/-- `str(value)` as applied to `tr["start"]` / `tr["end"]`: a JSON string
renders to itself; any other JSON value never renders to an ISO-format
timestamp, so it is modelled by a string `fromisoformat` rejects. -/
def jsonToPyStr : Json → Str
  | Json.str s => s
  | _ => []

/-- The `time_range` normalization block of `_parse_plan`.  Result
`none`: the value was left in `data` with a type pydantic rejects (a
list, number, or boolean), so plan construction raises.  Result
`some none`: the field is absent, `None`, a string, or an unparseable
dict — pydantic receives `None`.  Result `some (some tr)`: a dict with
parseable `start`/`end`. -/
def normalizePlanTimeRange (data : List (Str × Json)) :
    Option (Option TimeRange) :=
  match dictGet data ("time_range".data) with
  | none => some none
  | some Json.null => some none
  | some (Json.str _) => some none
  | some (Json.obj tr) =>
    if dictContains tr ("start".data) && dictContains tr ("end".data) then
      match
        fromisoformat (jsonToPyStr ((dictGet tr ("start".data)).getD Json.null)),
        fromisoformat (jsonToPyStr ((dictGet tr ("end".data)).getD Json.null))
      with
      | some a, some b => some (some ⟨a, b⟩)
      | _, _ => some none
    else some none
  | some _ => none

/-- pydantic validation of a `str` field: present values must be JSON
strings. -/
def getStrField (data : List (Str × Json)) (k : Str) : Option Str :=
  match dictGet data k with
  | none => some []
  | some (Json.str s) => some s
  | some _ => none

/-- pydantic validation of a `list[str]` field: present values must be
JSON arrays of strings. -/
def getStrListField (data : List (Str × Json)) (k : Str) :
    Option (List Str) :=
  match dictGet data k with
  | none => some []
  | some (Json.arr xs) =>
    xs.mapM (fun j => match j with
      | Json.str s => some s
      | _ => none)
  | some _ => none

/-- `InvestigationPlan(**data)` after the normalization steps (extra keys
ignored, pydantic's default). -/
def buildInvestigationPlan (data : List (Str × Json))
    (tr : Option TimeRange) : Option InvestigationPlan := do
  let puid ← getStrField data ("prometheus_datasource_uid".data)
  let luid ← getStrField data ("loki_datasource_uid".data)
  let pq ← getStrListField data ("promql_queries".data)
  let lq ← getStrListField data ("logql_queries".data)
  let ti ← getStrListField data ("target_instances".data)
  some { prometheus_datasource_uid := puid
         loki_datasource_uid := luid
         promql_queries := pq
         logql_queries := lq
         target_instances := ti
         time_range := tr }

/-- The successful-JSON stage of `_parse_plan`: extract a JSON fragment,
`json.loads` it, and require a dict.  `none` is any of the failure modes
the source's `except` clause catches and re-raises as `ValueError`. -/
def planJsonObj (content : Str) : Option (List (Str × Json)) :=
  match _extract_json content with
  | none => none
  | some json_str =>
    match json_loads json_str with
    | some (Json.obj d) => some d
    | _ => none

/-- `OrchestratorAgent._parse_plan`.  `Except.error` models the
`raise ValueError(...)`; there is no branch producing a plan that was not
built from successfully parsed JSON. -/
def _parse_plan (content : Str) : Except Unit InvestigationPlan :=
  match planJsonObj content with
  | none => Except.error ()
  | some data0 =>
    let data1 := _unwrap_nested_plan data0
    let data2 := applyPlanAliases data1
    let data3 := coerceStrFieldsToList data2
    match normalizePlanTimeRange data3 with
    | none => Except.error ()
    | some tr =>
      match buildInvestigationPlan data3 tr with
      | some p => Except.ok p
      | none => Except.error ()

/-! ### `_validate_queries` / `_validate_query_list`

`QueryValidator.sanitize_query` and
`QueryValidator.contains_grafana_variables` are *called* by
`_validate_query_list` but their definitions are not part of the
repository snapshot, so they are modelled from the spec. -/

/-- Collapse accidental double braces (`{{` → `{`, `}}` → `}`). -/
def collapseDoubleBraces : Str → Str
  | [] => []
  | '{' :: '{' :: rest => '{' :: collapseDoubleBraces rest
  | '}' :: '}' :: rest => '}' :: collapseDoubleBraces rest
  | c :: rest => c :: collapseDoubleBraces rest

/-- Modelled from the spec: `QueryValidator.contains_grafana_variables`
is called by `_validate_query_list` but is missing from the repository
snapshot.  Per the spec, it detects Grafana template-variable
placeholders (`$var`-style), i.e. the presence of a `$`. -/
def contains_grafana_variables (q : Str) : Bool := q.any (· = '$')

/-- Modelled from the spec: `QueryValidator.sanitize_query` is called by
`_validate_query_list` but is missing from the repository snapshot.  Per
the spec's sanitization pass, accidental double braces are collapsed, and
template-variable placeholders are detected — not stripped — and flagged
as a warning. -/
def sanitize_query (query : Str) (_query_type : QueryType) :
    Str × List QWarning :=
  let sanitized := collapseDoubleBraces query
  (sanitized,
   (if sanitized ≠ query then [QWarning.doubleBracesCollapsed] else [])
   ++ (if contains_grafana_variables sanitized then
         [QWarning.grafanaVariableDetected] else []))

/-- The `validate_fn` selection in `_validate_query_list`. -/
def validateFnFor : QueryType → Str → ValidationResult
  | .promql => validate_promql
  | .logql => validate_logql

/-- Per-query outcome inside the `_validate_query_list` loop. -/
inductive QueryOutcome
  | skipped
  | valid (q : Str)
  | invalid (original : Str) (errs : List QError)
deriving DecidableEq, Repr

/-- One iteration of the `_validate_query_list` loop: sanitize, skip
queries holding Grafana variables, validate the sanitized query, and try
the re-validated auto-correction before reporting an error (the error
entry pairs the *original* query with the validator's errors, as the
source's message interpolation does). -/
def processQuery (query_type : QueryType) (query : Str) : QueryOutcome :=
  let sanitized := (sanitize_query query query_type).1
  if contains_grafana_variables sanitized then .skipped
  else
    let result := validateFnFor query_type sanitized
    if result.is_valid then .valid sanitized
    else
      match result.corrected_query with
      | some cq =>
        if (validateFnFor query_type cq).is_valid then .valid cq
        else .invalid query result.errors
      | none => .invalid query result.errors

/-- `OrchestratorAgent._validate_query_list`: classify a query list into
`(valid queries, error entries)`, in input order. -/
def _validate_query_list (queries : List Str) (query_type : QueryType) :
    List Str × List (Str × List QError) :=
  match queries with
  | [] => ([], [])
  | q :: rest =>
    let acc := _validate_query_list rest query_type
    match processQuery query_type q with
    | .skipped => acc
    | .valid v => (v :: acc.1, acc.2)
    | .invalid o errs => (acc.1, (o, errs) :: acc.2)

/-! ### `_resolve_time_range_node` -/

/-- Outcome of `_resolve_time_range_node` before any human interaction. -/
inductive ResolveOutcome
  | noPlan
  | passThrough
  | resolved (tr : TimeRange)
  | interrupted
deriving DecidableEq, Repr

/-- `OrchestratorAgent._resolve_time_range_node` (up to the `interrupt`
call; the post-resume path is `resolveClarificationRange` below).
Mirrors the source's branch order: an existing `plan.time_range` passes
through; an alert trigger derives
`[starts_at - 30m, ends_at or starts_at + 30m]`; a user query with
parsed bounds uses them, filling a missing end with `start + 1h`;
otherwise the workflow suspends for clarification. -/
def _resolve_time_range_node (plan : Option InvestigationPlan)
    (trigger_type : TriggerType) (alert : Option Alert)
    (user_query : Option UserQuery) : ResolveOutcome :=
  match plan with
  | none => .noPlan
  | some p =>
    match p.time_range with
    | some _ => .passThrough
    | none =>
      match trigger_type, alert with
      | .alert, some a =>
        .resolved ⟨a.starts_at - 1800, a.ends_at.getD (a.starts_at + 1800)⟩
      | _, _ =>
        match user_query with
        | some uq =>
          match uq.time_range_start, uq.time_range_end with
          | some s, some e => .resolved ⟨s, e⟩
          | some s, none => .resolved ⟨s, s + 3600⟩
          | none, _ => .interrupted
        | none => .interrupted

/-- The post-resume tail of `_resolve_time_range_node`: parse the LLM's
conversion of the human reply into absolute bounds; on the parse
failures the source's `except (json.JSONDecodeError, ValueError,
KeyError)` clause catches, fall back to the last hour ending `now`.
(A reply whose JSON parses to a non-dict, or whose bounds are non-string
JSON values, would raise an uncaught `TypeError` in the source; this
model folds those exotic replies into the fallback.  The theorems below
reach this function only through `_extract_json` failure, where the
model is exact.) -/
def resolveClarificationRange (responseContent : Str) (now : Int) :
    TimeRange :=
  let parsed : Option TimeRange :=
    match _extract_json responseContent with
    | none => none
    | some js =>
      match json_loads js with
      | some (Json.obj d) =>
        match dictGet d ("start".data), dictGet d ("end".data) with
        | some js1, some js2 =>
          match fromisoformat (jsonToPyStr js1),
                fromisoformat (jsonToPyStr js2) with
          | some a, some b => some ⟨a, b⟩
          | _, _ => none
        | _, _ => none
      | _ => none
  match parsed with
  | some tr => tr
  | none => ⟨now - 3600, now⟩

/-! ### `_evaluate_results` / `_parse_evaluation_feedback` -/

/-- `response.content.upper().split("\n")[0]`. -/
def firstLineUpper (content : Str) : Str :=
  (splitOnCh '\n' (upStr content)).headD []

/-- Result of a Python expression inside the
`_parse_evaluation_feedback` `try` block: success, or an exception its
`except (ValueError, json.JSONDecodeError)` clause does not catch
(`data.get` raising `AttributeError` on a non-dict). -/
inductive FeedbackParse (α : Type)
  | ok (a : α)
  | uncaught
deriving Repr

/-- The `except` clause's feedback: everything after the first line kept
as the reasoning (built before the `try`, so `previous_queries_attempted`
is already set). -/
def feedbackTextFallback (content : Str) (previous_queries : List Str) :
    EvaluationFeedback :=
  { previous_queries_attempted := previous_queries
    reasoning := Json.str
      (match splitOnCh '\n' content with
       | [] => []
       | [_] => []
       | _ :: rest => pyStrip (List.intercalate ['\n'] rest)) }

/-- `OrchestratorAgent._parse_evaluation_feedback`.  The `try` block
covers `_extract_json` (raising `ValueError`) and `json.loads` (raising
`JSONDecodeError`): both are caught in-function and produce the
text-reasoning fallback.  When `json.loads` yields a non-dict, the
subsequent `data.get` raises an `AttributeError` the `except` clause
does not list, so the exception escapes the function
(`FeedbackParse.uncaught`). -/
def _parse_evaluation_feedback (content : Str)
    (previous_queries : List Str) : FeedbackParse EvaluationFeedback :=
  match _extract_json content with
  | none => FeedbackParse.ok (feedbackTextFallback content previous_queries)
  | some js =>
    match json_loads js with
    | none => FeedbackParse.ok (feedbackTextFallback content previous_queries)
    | some (Json.obj d) =>
      FeedbackParse.ok
        { missing_information :=
            (dictGet d ("missing_information".data)).getD (Json.arr [])
          additional_investigation_points :=
            (dictGet d ("additional_investigation_points".data)).getD
              (Json.arr [])
          reasoning := (dictGet d ("reasoning".data)).getD (Json.str [])
          previous_queries_attempted := previous_queries }
    | some _ => FeedbackParse.uncaught

/-- The `previous_queries` collection in `_evaluate_results`: the plan's
PromQL then LogQL queries. -/
def previousQueriesOf : Option InvestigationPlan → List Str
  | some p => p.promql_queries ++ p.logql_queries
  | none => []

/-- `OrchestratorAgent._evaluate_results`, reduced to its state update:
the completion flag, and the feedback stored when the evaluation is not
complete.  When `_parse_evaluation_feedback` raises (uncaught), the node
raises with it and no state update is stored. -/
def _evaluate_results (content : Str) (plan : Option InvestigationPlan) :
    FeedbackParse (Bool × Option EvaluationFeedback) :=
  let is_complete := ("SUFFICIENT".data).isPrefixOf (firstLineUpper content)
  if is_complete then FeedbackParse.ok (true, none)
  else
    match _parse_evaluation_feedback content (previousQueriesOf plan) with
    | FeedbackParse.ok feedback => FeedbackParse.ok (false, some feedback)
    | FeedbackParse.uncaught => FeedbackParse.uncaught

/-! ### `_should_continue` and the workflow loop -/

/-- The nodes of the graph `_build_graph` wires (the two gathering
branches are summarized by one `gather` node: neither touches
`iteration_count` or `investigation_complete`, and both pass from
`resolve_time_range` to `evaluate_results`). -/
inductive WNode
  | discover_environment
  | analyze_input
  | plan_investigation
  | validate_queries
  | resolve_time_range
  | gather
  | evaluate_results
  | generate_rca
  | finished
deriving DecidableEq, Repr

/-- The workflow-relevant fields of `AgentState`. -/
structure WState where
  node : WNode
  iteration_count : Nat
  investigation_complete : Bool
  max_iterations : Nat
deriving DecidableEq, Repr

/-- `OrchestratorAgent._should_continue`. -/
def _should_continue (s : WState) : Str :=
  if s.investigation_complete then "finish".data
  else if s.max_iterations ≤ s.iteration_count then "finish".data
  else "continue".data

/-- One workflow step.  `plan_investigation` is the only node writing
`iteration_count` (it returns `iteration_count + 1`);
`evaluate_results` writes `investigation_complete` (the LLM's verdict
`b` is nondeterministic) and is followed by the conditional edge driven
by `_should_continue`. -/
inductive WStep : WState → WState → Prop
  | discover (s : WState) (h : s.node = WNode.discover_environment) :
    WStep s { s with node := WNode.analyze_input }
  | analyze (s : WState) (h : s.node = WNode.analyze_input) :
    WStep s { s with node := WNode.plan_investigation }
  | plan (s : WState) (h : s.node = WNode.plan_investigation) :
    WStep s { s with node := WNode.validate_queries,
                     iteration_count := s.iteration_count + 1 }
  | validate (s : WState) (h : s.node = WNode.validate_queries) :
    WStep s { s with node := WNode.resolve_time_range }
  | resolve (s : WState) (h : s.node = WNode.resolve_time_range) :
    WStep s { s with node := WNode.gather }
  | gather (s : WState) (h : s.node = WNode.gather) :
    WStep s { s with node := WNode.evaluate_results }
  | evaluate (s : WState) (b : Bool) (h : s.node = WNode.evaluate_results) :
    WStep s
      (if _should_continue { s with investigation_complete := b }
          = "finish".data
       then { s with investigation_complete := b,
                     node := WNode.generate_rca }
       else { s with investigation_complete := b,
                     node := WNode.plan_investigation })
  | rca (s : WState) (h : s.node = WNode.generate_rca) :
    WStep s { s with node := WNode.finished }

/-- The initial `AgentState` of a run: the entry point with
`iteration_count = 0`, not yet complete, and the configured iteration
ceiling. -/
def initWState (max_iterations : Nat) : WState :=
  { node := WNode.discover_environment
    iteration_count := 0
    investigation_complete := false
    max_iterations := max_iterations }

/-- States reachable from the initial state under the workflow's step
relation. -/
def WReachable (max_iterations : Nat) (s : WState) : Prop :=
  Relation.ReflTransGen WStep (initWState max_iterations) s

/-! ## `agents/rca_agent.py` — report parsing -/

/-- Result of a Python expression inside `_parse_report`'s `try` block:
success; an exception its `except (json.JSONDecodeError, ValueError)`
clause catches (including pydantic's `ValidationError`, a `ValueError`
subclass); or an exception it does not catch (`TypeError` /
`AttributeError` on values of an unexpected shape). -/
inductive TryResult (α : Type)
  | ok (a : α)
  | caught
  | uncaught
deriving DecidableEq, Repr

/-- `RootCause` (pydantic: `description: str` required,
`confidence: float` constrained to `[0, 1]`, `evidence: list[str]`;
floats modelled as rationals). -/
structure RootCause where
  description : Str
  confidence : Rat
  evidence : List Str := []
deriving DecidableEq, Repr

/-- The fields of `RCAReport` that `_parse_report` fills from the LLM
output (the trigger pass-through fields and the later-filled evidence
fields are omitted). -/
structure RCAReportCore where
  root_causes : List RootCause := []
  metrics_summary : Str := []
  logs_summary : Str := []
  recommendations : List Str := []
deriving DecidableEq, Repr

/-- `RCAAgent._extract_json`: unlike the orchestrator's version, an
unterminated \x60\x60\x60json fence raises (`none`) without falling back to the
brace search, and there is no plain-fence strategy. -/
def rca_extract_json (text : Str) : Option Str :=
  match findSub ("```json".data) text with
  | some i =>
    let start := i + 7
    match findSub ("```".data) (text.drop start) with
    | some j => some (pyStrip (slice text start (start + j)))
    | none => none
  | none =>
    match findSub (['{']) text, rfindSub (['}']) text with
    | some a, some b => some (slice text a (b + 1))
    | _, _ => none

/-- `RootCause(**rc)` on one JSON value.  A non-object raises `TypeError`
(uncaught); an object missing required fields, with a non-string
description, a confidence that is not a number in `[0, 1]`, or a
malformed evidence list raises `ValidationError` (caught). -/
def rootCauseOfJson : Json → TryResult RootCause
  | Json.obj d =>
    match dictGet d ("description".data), dictGet d ("confidence".data) with
    | some (Json.str s), some (Json.num q) =>
      if 0 ≤ q ∧ q ≤ 1 then
        match dictGet d ("evidence".data) with
        | none => .ok { description := s, confidence := q }
        | some (Json.arr xs) =>
          match xs.mapM (fun j => match j with
            | Json.str e => some e
            | _ => none) with
          | some ev => .ok { description := s, confidence := q, evidence := ev }
          | none => .caught
        | some _ => .caught
    else .caught
    | _, _ => .caught
  | _ => .uncaught

/-- `[RootCause(**rc) for rc in v]`: `v` must be iterable over mappings.
Non-iterables, and iterables of non-mappings, raise uncaught
`TypeError`s (an empty string or empty object iterates to nothing). -/
def rootCausesOfJson : Json → TryResult (List RootCause)
  | Json.arr xs =>
    xs.foldr
      (fun j acc =>
        match rootCauseOfJson j, acc with
        | .ok rc, .ok rcs => .ok (rc :: rcs)
        | .uncaught, _ => .uncaught
        | _, .uncaught => .uncaught
        | _, _ => .caught)
      (.ok [])
  | Json.str s => if s = [] then .ok [] else .uncaught
  | Json.obj d => if d.isEmpty then .ok [] else .uncaught
  | _ => .uncaught

/-- The fallback report built by `_parse_report`'s `except` clause: the
raw LLM output becomes the single root-cause candidate with confidence
0.5, and `data = {}` leaves every other field at its default. -/
def fallbackReport (content : Str) : RCAReportCore :=
  { root_causes := [{ description := content, confidence := 1/2 }] }

/-- `RCAAgent._parse_report` (the fields derived from `content`; the
state pass-through fields are independent of the parse).  The `try`
block covers JSON extraction, `json.loads`, and the root-cause list; its
`except` clause substitutes the fallback.  The final `RCAReport(...)`
construction is outside the `try`, so a malformed summary or
recommendations value raises uncaught. -/
def _parse_report (content : Str) : TryResult RCAReportCore :=
  let attempt : TryResult (List RootCause × List (Str × Json)) :=
    match rca_extract_json content with
    | none => .caught
    | some js =>
      match json_loads js with
      | none => .caught
      | some (Json.obj d) =>
        match rootCausesOfJson ((dictGet d ("root_causes".data)).getD
            (Json.arr [])) with
        | .ok rcs => .ok (rcs, d)
        | .caught => .caught
        | .uncaught => .uncaught
      | some _ => .uncaught
  match attempt with
  | .uncaught => .uncaught
  | .caught => .ok (fallbackReport content)
  | .ok (rcs, d) =>
    match getStrField d ("metrics_summary".data),
          getStrField d ("logs_summary".data),
          getStrListField d ("recommendations".data) with
    | some ms, some ls, some recs =>
      .ok { root_causes := rcs, metrics_summary := ms
            logs_summary := ls, recommendations := recs }
    | _, _, _ => .uncaught

/-! ## `tools/base.py` — the MCP client's retry behaviour

A remote invocation is driven by an *attempt oracle* mapping the attempt
number (1-based, tenacity's `attempt_number`) to what the network does on
that attempt: a transport-level failure, or a server response
envelope. -/

/-- Transport-level failures (`ConnectionError` / `OSError` vs
`TimeoutError`), as `MCPClient.session` distinguishes them. -/
inductive TransportFailure
  | connectionRefused
  | timeout
deriving DecidableEq, Repr

/-- The typed errors `MCPConnectionError` / `MCPTimeoutError` that
`session` raises for transport failures. -/
inductive MCPError
  | connectionError
  | timeoutError
deriving DecidableEq, Repr

/-- How `session` wraps a transport failure into a typed error. -/
def typedErrorOf : TransportFailure → MCPError
  | .connectionRefused => .connectionError
  | .timeout => .timeoutError

/-- One typed content part of a `CallToolResult` envelope. -/
inductive MCPContent
  | text (s : Str)
  | image (mimeType : Str) (data : Str)
  | resource (r : Str)
deriving DecidableEq, Repr

/-- `mcp.types.CallToolResult`. -/
structure CallToolResult where
  isError : Bool
  content : List MCPContent
deriving DecidableEq, Repr

/-- What the network does on one attempt. -/
inductive AttemptOutcome
  | transport (e : TransportFailure)
  | response (r : CallToolResult)

/-- `MCPClient._extract_result`: a server-marked error becomes a tagged
`{"error": ...}` value (concatenating the text parts) and is *returned*,
not raised; otherwise the typed content parts are extracted. -/
inductive ExtractedResult
  | errorTag (text : Str)
  | contentOf (parts : List MCPContent)
deriving DecidableEq, Repr

/-- `MCPClient._extract_result`. -/
def _extract_result (result : CallToolResult) : ExtractedResult :=
  if result.isError then
    .errorTag (result.content.foldr
      (fun part acc => match part with
        | MCPContent.text s => s ++ acc
        | _ => acc) [])
  else .contentOf result.content

/-- tenacity `wait_exponential(multiplier=1, min=1, max=10)`: the sleep
after failed attempt `n` is `clamp(1, 2^(n-1), 10)` seconds. -/
def waitSeconds (attempt_number : Nat) : Nat :=
  max 1 (min (2 ^ (attempt_number - 1)) 10)

/-- The retry loop of the `@retry(...)`-decorated `MCPClient.call_tool`:
at most `remaining` further attempts (`stop_after_attempt(3)` starts it
at 3); a response envelope ends the loop through `_extract_result`; a
transport failure sleeps `waitSeconds` and retries, and after the last
attempt the typed error is re-raised (`reraise=True`).  Returns the
outcome and the list of sleeps performed. -/
def callToolAux (oracle : Nat → AttemptOutcome) (attempt_number : Nat) :
    Nat → Except MCPError ExtractedResult × List Nat
  | 0 => (Except.error MCPError.connectionError, [])
  | remaining + 1 =>
    match oracle attempt_number with
    | .response r => (Except.ok (_extract_result r), [])
    | .transport e =>
      if remaining = 0 then (Except.error (typedErrorOf e), [])
      else
        let tail := callToolAux oracle (attempt_number + 1) remaining
        (tail.1, waitSeconds attempt_number :: tail.2)

/-- `MCPClient.call_tool` under its retry decorator. -/
def call_tool (oracle : Nat → AttemptOutcome) :
    Except MCPError ExtractedResult × List Nat :=
  callToolAux oracle 1 3

/-- `MCPClient.call_tool_with_session`: no decorator and no session
wrapper — a single attempt whose transport failure propagates raw
(no typed wrapping, no retry, no sleeps). -/
def call_tool_with_session (oracle : Nat → AttemptOutcome) :
    Except TransportFailure ExtractedResult :=
  match oracle 1 with
  | .response r => Except.ok (_extract_result r)
  | .transport e => Except.error e

/-! ## `tools/registry.py` and graph construction -/

/-- `MCPConnection` (dataclass; `healthy: bool = False`). -/
structure MCPConnection where
  name : Str
  healthy : Bool := false
deriving DecidableEq, Repr

/-- `ToolRegistry` (the `client` objects carry no state the claims
read). -/
structure ToolRegistry where
  prometheus : MCPConnection
  loki : MCPConnection
  grafana : MCPConnection
deriving DecidableEq, Repr

/-- `ToolRegistry._all_connections` (set by `__post_init__`). -/
def _all_connections (r : ToolRegistry) : List MCPConnection :=
  [r.prometheus, r.loki, r.grafana]

/-- `ToolRegistry.from_settings`: each connection is constructed without
passing `healthy`, so the dataclass default `False` applies. -/
def from_settings : ToolRegistry :=
  { prometheus := { name := "prometheus".data }
    loki := { name := "loki".data }
    grafana := { name := "grafana".data } }

/-- `ToolRegistry.get_healthy_connections`. -/
def get_healthy_connections (r : ToolRegistry) : List MCPConnection :=
  (_all_connections r).filter (fun conn => conn.healthy)

/-- `ToolRegistry.is_any_healthy`. -/
def is_any_healthy (r : ToolRegistry) : Bool :=
  (_all_connections r).any (fun conn => conn.healthy)

/-- A built `StateGraph`: named nodes, unconditional edges, and the
conditional edges out of `evaluate_results` (label, target). -/
structure GraphSpec where
  nodes : List Str
  edges : List (Str × Str)
  conditional_edges : List (Str × Str × Str)
deriving DecidableEq, Repr

/-- `OrchestratorAgent._rebuild_agents_and_graph` +
`OrchestratorAgent._build_graph` as a pure function of the registry's
health flags: the Prometheus/Loki/Grafana clients are used only when
healthy; the metrics agent exists iff Prometheus or Grafana is available,
the logs agent iff Loki or Grafana is; each existing branch is wired
between `resolve_time_range` and `evaluate_results`, and when neither
exists `resolve_time_range` feeds `evaluate_results` directly. -/
def _build_graph (r : ToolRegistry) : GraphSpec :=
  let grafana_mcp := r.grafana.healthy
  let prometheus_mcp := r.prometheus.healthy
  let loki_mcp := r.loki.healthy
  let metrics_agent := prometheus_mcp || grafana_mcp
  let logs_agent := loki_mcp || grafana_mcp
  { nodes :=
      (["discover_environment", "analyze_input", "plan_investigation",
        "validate_queries", "resolve_time_range",
        "evaluate_results"].map String.data)
      ++ (if metrics_agent then [("investigate_metrics".data)] else [])
      ++ (if logs_agent then [("investigate_logs".data)] else [])
      ++ [("generate_rca".data)]
    edges :=
      [(("discover_environment".data), ("analyze_input".data)),
       (("analyze_input".data), ("plan_investigation".data)),
       (("plan_investigation".data), ("validate_queries".data)),
       (("validate_queries".data), ("resolve_time_range".data))]
      ++ (if metrics_agent then
            [(("resolve_time_range".data), ("investigate_metrics".data)),
             (("investigate_metrics".data), ("evaluate_results".data))]
          else [])
      ++ (if logs_agent then
            [(("resolve_time_range".data), ("investigate_logs".data)),
             (("investigate_logs".data), ("evaluate_results".data))]
          else [])
      ++ (if !metrics_agent && !logs_agent then
            [(("resolve_time_range".data), ("evaluate_results".data))]
          else [])
      ++ [(("generate_rca".data), ("END".data))]
    conditional_edges :=
      [(("evaluate_results".data), ("continue".data),
        ("plan_investigation".data)),
       (("evaluate_results".data), ("finish".data),
        ("generate_rca".data))] }

/-! # Theorems -/

/-! ## C10 — a fresh registry is entirely unhealthy and builds no
gathering branch -/

/-- **C10** (confirmed): every connection `from_settings` creates has its
healthy flag `False`; before any health-check pass, `is_any_healthy`
is `False` and `get_healthy_connections` is empty; and the workflow
graph built from such a registry contains neither the
`investigate_metrics` nor the `investigate_logs` node, wiring
`resolve_time_range` straight into `evaluate_results`. -/
theorem c10_fresh_registry_unhealthy_no_branches :
    ((_all_connections from_settings).map MCPConnection.healthy)
        = [false, false, false]
    ∧ is_any_healthy from_settings = false
    ∧ get_healthy_connections from_settings = []
    ∧ ("investigate_metrics".data) ∉ (_build_graph from_settings).nodes
    ∧ ("investigate_logs".data) ∉ (_build_graph from_settings).nodes
    ∧ (("resolve_time_range".data), ("evaluate_results".data))
        ∈ (_build_graph from_settings).edges := by
  refine ⟨rfl, rfl, rfl, ?_, ?_, ?_⟩ <;> decide

/-! ## C6 — automatic time-range derivation -/

/-- **C6** (confirmed): when the plan carries no time range, an alert
trigger with `starts_at = T` and `ends_at = None` resolves to exactly
`[T - 30m, T + 30m]`; with `ends_at = E` it resolves to `[T - 30m, E]`;
and a free-text trigger whose query has `time_range_start = T` and no end
resolves to exactly `[T, T + 1h]`. -/
theorem c6_time_range_derivation (p : InvestigationPlan)
    (hp : p.time_range = none) (T : Int) :
    (∀ uq : Option UserQuery,
      _resolve_time_range_node (some p) TriggerType.alert
          (some { starts_at := T, ends_at := none }) uq
        = ResolveOutcome.resolved ⟨T - 1800, T + 1800⟩)
    ∧ (∀ (E : Int) (uq : Option UserQuery),
      _resolve_time_range_node (some p) TriggerType.alert
          (some { starts_at := T, ends_at := some E }) uq
        = ResolveOutcome.resolved ⟨T - 1800, E⟩)
    ∧ (∀ al : Option Alert,
      _resolve_time_range_node (some p) TriggerType.user_query al
          (some { time_range_start := some T, time_range_end := none })
        = ResolveOutcome.resolved ⟨T, T + 3600⟩) := by
  refine ⟨fun uq => ?_, fun E uq => ?_, fun al => ?_⟩ <;>
    simp [_resolve_time_range_node, hp, Option.getD]

/-- Witness for C6 at `T = 0` with an empty plan. -/
theorem c6_witness :
    _resolve_time_range_node (some {}) TriggerType.alert
        (some { starts_at := 0, ends_at := none }) none
      = ResolveOutcome.resolved ⟨0 - 1800, 0 + 1800⟩ :=
  (c6_time_range_derivation {} rfl 0).1 none

/-! ## C2 — iteration-count invariant and loop guard -/

/-- `_should_continue` returns `finish` exactly on completion or a
reached ceiling (helper for C2). -/
theorem should_continue_finish_iff (s : WState) :
    (_should_continue s = "finish".data ↔
      (s.investigation_complete = true ∨
        s.max_iterations ≤ s.iteration_count)) := by
  unfold _should_continue
  by_cases h1 : s.investigation_complete = true
  · rw [if_pos h1]
    simp [h1]
  · rw [if_neg h1]
    by_cases h2 : s.max_iterations ≤ s.iteration_count
    · rw [if_pos h2]
      simp [h2]
    · rw [if_neg h2]
      constructor
      · intro h
        exact absurd h (by decide)
      · rintro (hc | hc)
        · exact absurd hc h1
        · exact absurd hc h2

/-- The strengthened inductive invariant behind C2: the configured
ceiling is kept, never exceeded, and strictly above the count on the
nodes leading into `plan_investigation`. -/
def WInv (m : Nat) (s : WState) : Prop :=
  s.max_iterations = m ∧ s.iteration_count ≤ m ∧
    ((s.node = WNode.discover_environment ∨ s.node = WNode.analyze_input
      ∨ s.node = WNode.plan_investigation) → s.iteration_count < m)

/-- One workflow step preserves the invariant (helper for C2). -/
theorem wstep_preserves_inv (m : Nat) (x y : WState)
    (hstep : WStep x y) (hx : WInv m x) : WInv m y := by
  obtain ⟨ihm, ihle, ihpre⟩ := hx
  cases hstep with
  | discover h =>
    exact ⟨ihm, ihle, fun _ => ihpre (Or.inl h)⟩
  | analyze h =>
    exact ⟨ihm, ihle, fun _ => ihpre (Or.inr (Or.inl h))⟩
  | plan h =>
    refine ⟨ihm, Nat.succ_le_of_lt (ihm ▸ ihpre (Or.inr (Or.inr h))), ?_⟩
    rintro (hn | hn | hn) <;> simp at hn
  | validate h =>
    refine ⟨ihm, ihle, ?_⟩
    rintro (hn | hn | hn) <;> simp at hn
  | resolve h =>
    refine ⟨ihm, ihle, ?_⟩
    rintro (hn | hn | hn) <;> simp at hn
  | gather h =>
    refine ⟨ihm, ihle, ?_⟩
    rintro (hn | hn | hn) <;> simp at hn
  | evaluate b h =>
    split
    · refine ⟨ihm, ihle, ?_⟩
      rintro (hn | hn | hn) <;> simp at hn
    · next hfin =>
      refine ⟨ihm, ihle, fun _ => ?_⟩
      have hle2 : ¬ x.max_iterations ≤ x.iteration_count := by
        intro hc
        exact hfin ((should_continue_finish_iff _).mpr (Or.inr hc))
      simpa [ihm] using Nat.lt_of_not_le hle2
  | rca h =>
    refine ⟨ihm, ihle, ?_⟩
    rintro (hn | hn | hn) <;> simp at hn

/-- Every reachable state satisfies the invariant (helper for C2). -/
theorem wreachable_invariant (m : Nat) (hm : 0 < m) (s : WState)
    (hr : WReachable m s) : WInv m s := by
  induction hr with
  | refl => exact ⟨rfl, Nat.zero_le m, fun _ => hm⟩
  | tail _ hstep ih => exact wstep_preserves_inv m _ _ hstep ih

/-- **C2** (confirmed): for every reachable workflow state,
`0 ≤ iteration_count ≤ max_iterations`; `_should_continue` returns
`finish` exactly when the investigation is marked complete or the
ceiling is reached, and `continue` otherwise; and a
`plan_investigation` step increments `iteration_count` by exactly 1. -/
theorem c2_iteration_bounds_and_guard (m : Nat) (hm : 0 < m) :
    (∀ s, WReachable m s →
      0 ≤ s.iteration_count ∧ s.iteration_count ≤ s.max_iterations)
    ∧ (∀ s : WState,
        (_should_continue s = "finish".data ↔
          (s.investigation_complete = true ∨
            s.max_iterations ≤ s.iteration_count))
        ∧ (_should_continue s = "continue".data ↔
          ¬(s.investigation_complete = true ∨
            s.max_iterations ≤ s.iteration_count)))
    ∧ (∀ s s' : WState, WStep s s' → s.node = WNode.plan_investigation →
        s'.iteration_count = s.iteration_count + 1) := by
  refine ⟨fun s hr => ?_, fun s => ⟨should_continue_finish_iff s, ?_⟩,
    fun s s' hstep hnode => ?_⟩
  · obtain ⟨hmax, hle, -⟩ := wreachable_invariant m hm s hr
    exact ⟨Nat.zero_le _, hmax ▸ hle⟩
  · rw [← should_continue_finish_iff s]
    unfold _should_continue
    by_cases h1 : s.investigation_complete = true
    · rw [if_pos h1]
      constructor
      · intro h
        exact absurd h (by decide)
      · intro h
        exact absurd rfl h
    · rw [if_neg h1]
      by_cases h2 : s.max_iterations ≤ s.iteration_count
      · rw [if_pos h2]
        constructor
        · intro h
          exact absurd h (by decide)
        · intro h
          exact absurd rfl h
      · rw [if_neg h2]
        constructor
        · intro _
          decide
        · intro _
          rfl
  · cases hstep with
    | plan h => rfl
    | discover h => rw [hnode] at h; exact absurd h (by decide)
    | analyze h => rw [hnode] at h; exact absurd h (by decide)
    | validate h => rw [hnode] at h; exact absurd h (by decide)
    | resolve h => rw [hnode] at h; exact absurd h (by decide)
    | gather h => rw [hnode] at h; exact absurd h (by decide)
    | evaluate b h => rw [hnode] at h; exact absurd h (by decide)
    | rca h => rw [hnode] at h; exact absurd h (by decide)

/-- Witness for C2 at the default ceiling 3 and the initial state. -/
theorem c2_witness :
    0 ≤ (initWState 3).iteration_count ∧
      (initWState 3).iteration_count ≤ (initWState 3).max_iterations :=
  (c2_iteration_bounds_and_guard 3 (by decide)).1 _ Relation.ReflTransGen.refl

/-! ## C4 — plan parse failures raise; no default plan -/

/-- **C4** (confirmed): whenever the completion output cannot be parsed
into a plan (no JSON fragment, `json.loads` failure, or a non-dict
value), `_parse_plan` raises (`Except.error`), and every successfully
returned plan was built from a successfully parsed JSON object — the
engine never substitutes a default plan. -/
theorem c4_parse_plan_raises_no_default (content : Str) :
    (planJsonObj content = none → _parse_plan content = Except.error ())
    ∧ (∀ p, _parse_plan content = Except.ok p →
        ∃ d, planJsonObj content = some d) := by
  constructor
  · intro h
    unfold _parse_plan
    rw [h]
  · intro p hp
    unfold _parse_plan at hp
    cases hpj : planJsonObj content with
    | none => rw [hpj] at hp; exact absurd hp (by simp)
    | some d => exact ⟨d, rfl⟩

/-- Witness for C4 on output holding no JSON at all. -/
theorem c4_witness : _parse_plan ("hello there".data) = Except.error () :=
  (c4_parse_plan_raises_no_default _).1 rfl

/-! ## C8 — the `start < end` invariant on `TimeRange` (corrected) -/

/-- **C8 counterexample**: a plan parsed from completion output whose
`time_range` carries reversed ISO timestamps is accepted as-is —
`TimeRange` enforces no ordering — so the system holds a `TimeRange`
with `end < start`. -/
theorem c8_counterexample_reversed_range_accepted :
    _parse_plan (("```json\n\x7b\"time_range\": \x7b\"start\": " ++
        "\"2026-01-01T10:00:00\", \"end\": \"2026-01-01T09:00:00\"\x7d\x7d\n```").data)
      = Except.ok { time_range := some ⟨65120061600, 65120058000⟩ }
    ∧ ¬ ((65120061600 : Int) < 65120058000) := by
  exact ⟨by rfl, by decide⟩

/-- **C8 theorem (amended)**: `TimeRange` itself does not enforce
`start < end` (a plan parsed from completion output may carry a reversed
range, see the counterexample); the ranges the engine *derives* itself do
satisfy `start < end`: the alert-trigger derivation with `ends_at = None`,
the user-query derivation with a missing end, and the clarification
fallback of "last 1 hour ending now". -/
theorem c8_derived_ranges_satisfy_invariant (p : InvestigationPlan)
    (hp : p.time_range = none) (T now : Int) (uq : Option UserQuery)
    (al : Option Alert) (content : Str)
    (hc : _extract_json content = none) :
    (∀ tr, _resolve_time_range_node (some p) TriggerType.alert
        (some { starts_at := T, ends_at := none }) uq
        = ResolveOutcome.resolved tr → tr.start < tr.«end»)
    ∧ (∀ tr, _resolve_time_range_node (some p) TriggerType.user_query al
        (some { time_range_start := some T, time_range_end := none })
        = ResolveOutcome.resolved tr → tr.start < tr.«end»)
    ∧ ((resolveClarificationRange content now).start
        < (resolveClarificationRange content now).«end») := by
  refine ⟨fun tr htr => ?_, fun tr htr => ?_, ?_⟩
  · have : ResolveOutcome.resolved ⟨T - 1800, T + 1800⟩
        = ResolveOutcome.resolved tr := by
      rw [← htr]
      simp [_resolve_time_range_node, hp, Option.getD]
    obtain rfl : (⟨T - 1800, T + 1800⟩ : TimeRange) = tr :=
      by injection this
    show T - 1800 < T + 1800
    omega
  · have : ResolveOutcome.resolved ⟨T, T + 3600⟩
        = ResolveOutcome.resolved tr := by
      rw [← htr]
      simp [_resolve_time_range_node, hp]
    obtain rfl : (⟨T, T + 3600⟩ : TimeRange) = tr := by injection this
    show T < T + 3600
    omega
  · have hfb : resolveClarificationRange content now = ⟨now - 3600, now⟩ := by
      unfold resolveClarificationRange
      rw [hc]
    rw [hfb]
    show now - 3600 < now
    omega

/-- Witness for C8's amended theorem at `T = now = 0`. -/
theorem c8_witness :
    (resolveClarificationRange ("no json".data) 0).start
      < (resolveClarificationRange ("no json".data) 0).«end» :=
  (c8_derived_ranges_satisfy_invariant {} rfl 0 0 none none
    ("no json".data) rfl).2.2

/-! ## C3 — report parse failures substitute a fallback (corrected) -/

/-- **C3 counterexample**: on completion output that is not well-formed
JSON, `_parse_report` does *not* raise — it substitutes a default report
whose single root-cause candidate wraps the raw output with confidence
0.5. -/
theorem c3_counterexample_fallback_report :
    _parse_report ("This is not JSON, just a plain text description.".data)
      = TryResult.ok
          (fallbackReport
            ("This is not JSON, just a plain text description.".data))
    ∧ fallbackReport
          ("This is not JSON, just a plain text description.".data)
        = { root_causes :=
              [{ description :=
                   ("This is not JSON, just a plain text description.".data)
                 confidence := 1/2 }] } := by
  exact ⟨by rfl, rfl⟩

/-- **C3 theorem (amended)**: on completion output whose report JSON
cannot be extracted, whose extracted fragment fails `json.loads`, or
whose root-cause entries fail model validation, the report-generation
stage does not raise — it substitutes the fallback report, the raw
output as the sole root-cause candidate with confidence 0.5 and every
other field defaulted.  Output whose extracted JSON parses to a
non-dict instead raises an error the stage's `except` clause does not
catch (no fallback and no default candidates on that path). -/
theorem c3_fallback_on_parse_failure (content js : Str) :
    (rca_extract_json content = none →
      _parse_report content = TryResult.ok (fallbackReport content))
    ∧ (rca_extract_json content = some js → json_loads js = none →
      _parse_report content = TryResult.ok (fallbackReport content))
    ∧ (∀ d, rca_extract_json content = some js →
        json_loads js = some (Json.obj d) →
        rootCausesOfJson ((dictGet d ("root_causes".data)).getD (Json.arr []))
          = TryResult.caught →
        _parse_report content = TryResult.ok (fallbackReport content))
    ∧ (∀ xs, rca_extract_json content = some js →
        json_loads js = some (Json.arr xs) →
        _parse_report content = TryResult.uncaught)
    ∧ (fallbackReport content).root_causes
        = [{ description := content, confidence := 1/2 }] := by
  refine ⟨fun h => ?_, fun h1 h2 => ?_, fun d h1 h2 h3 => ?_,
    fun xs h1 h2 => ?_, rfl⟩
  · unfold _parse_report
    rw [h]
  · unfold _parse_report
    rw [h1]
    dsimp only
    rw [h2]
  · unfold _parse_report
    rw [h1]
    dsimp only
    rw [h2]
    dsimp only
    rw [h3]
  · unfold _parse_report
    rw [h1]
    dsimp only
    rw [h2]

/-- Witness for C3's amended theorem on plain-text output. -/
theorem c3_witness :
    _parse_report ("plain text".data)
      = TryResult.ok (fallbackReport ("plain text".data)) :=
  (c3_fallback_on_parse_failure _ []).1 rfl

/-! ## C5 — transport retry vs tagged tool errors (corrected) -/

/-- An invocation stream whose first attempt hits a transport failure and
whose later attempts succeed (used by C5). -/
def oracleOneFailure : Nat → AttemptOutcome := fun n =>
  if n = 1 then AttemptOutcome.transport TransportFailure.connectionRefused
  else AttemptOutcome.response
    { isError := false, content := [MCPContent.text ("ok".data)] }

/-- **C5 counterexample**: not every remote tool invocation retries
transport failures.  On a stream where the first attempt fails at the
transport level and a retry would succeed, the session-reusing
`call_tool_with_session` gives up after a single attempt, propagating
the raw (untyped, unretried) transport error, while the decorated
`call_tool` retries once (a 1 s backoff) and succeeds. -/
theorem c5_counterexample_session_not_retried :
    call_tool_with_session oracleOneFailure
        = Except.error TransportFailure.connectionRefused
    ∧ call_tool oracleOneFailure
        = (Except.ok (ExtractedResult.contentOf
            [MCPContent.text ("ok".data)]), [1]) := by
  exact ⟨rfl, rfl⟩

/-- **C5 theorem (amended)**: invocations through the sessionless
`call_tool` retry transport failures up to 3 attempts total, sleeping the
exponential backoff `1s, 2s` (each sleep `clamp(1, 2^(n-1), 10)`), and
raise the typed error of the last failure only on exhaustion; a response
the server marks as an error is returned as a tagged `error` value and is
never retried (the attempt that received it is the last); invocations
through `call_tool_with_session` (an existing session) make exactly one
attempt and propagate transport failures raw, without retry. -/
theorem c5_retry_and_tagged_errors (oracle : Nat → AttemptOutcome) :
    ((call_tool oracle).2.length + 1 ≤ 3
      ∧ (∃ t, (call_tool oracle).2 ++ t = [1, 2])
      ∧ (∀ n, 1 ≤ waitSeconds n ∧ waitSeconds n ≤ 10))
    ∧ (∀ r, oracle 1 = AttemptOutcome.response r →
        call_tool oracle = (Except.ok (_extract_result r), []))
    ∧ (∀ r, r.isError = true → ∃ t, _extract_result r
        = ExtractedResult.errorTag t)
    ∧ (∀ e1 e2 e3,
        oracle 1 = AttemptOutcome.transport e1 →
        oracle 2 = AttemptOutcome.transport e2 →
        oracle 3 = AttemptOutcome.transport e3 →
        call_tool oracle = (Except.error (typedErrorOf e3), [1, 2]))
    ∧ (∀ e, oracle 1 = AttemptOutcome.transport e →
        call_tool_with_session oracle = Except.error e)
    ∧ (∀ r, oracle 1 = AttemptOutcome.response r →
        call_tool_with_session oracle = Except.ok (_extract_result r)) := by
  refine ⟨⟨?_, ?_, fun n => ?_⟩, fun r h1 => ?_, fun r hr => ?_,
    fun e1 e2 e3 h1 h2 h3 => ?_, fun e h1 => ?_, fun r h1 => ?_⟩
  · cases h1 : oracle 1 with
    | response r => simp [call_tool, callToolAux, h1]
    | transport e1 =>
      cases h2 : oracle 2 with
      | response r => simp [call_tool, callToolAux, h1, h2]
      | transport e2 =>
        cases h3 : oracle 3 with
        | response r => simp [call_tool, callToolAux, h1, h2, h3]
        | transport e3 => simp [call_tool, callToolAux, h1, h2, h3]
  · cases h1 : oracle 1 with
    | response r =>
      have hc : call_tool oracle = (Except.ok (_extract_result r), []) := by
        simp [call_tool, callToolAux, h1]
      rw [hc]
      exact ⟨[1, 2], rfl⟩
    | transport e1 =>
      cases h2 : oracle 2 with
      | response r =>
        have hc : call_tool oracle
            = (Except.ok (_extract_result r), [waitSeconds 1]) := by
          simp [call_tool, callToolAux, h1, h2]
        rw [hc]
        exact ⟨[2], rfl⟩
      | transport e2 =>
        cases h3 : oracle 3 with
        | response r =>
          have hc : call_tool oracle = (Except.ok (_extract_result r),
              [waitSeconds 1, waitSeconds 2]) := by
            simp [call_tool, callToolAux, h1, h2, h3]
          rw [hc]
          exact ⟨[], rfl⟩
        | transport e3 =>
          have hc : call_tool oracle = (Except.error (typedErrorOf e3),
              [waitSeconds 1, waitSeconds 2]) := by
            simp [call_tool, callToolAux, h1, h2, h3]
          rw [hc]
          exact ⟨[], rfl⟩
  · unfold waitSeconds
    constructor
    · exact Nat.le_max_left _ _
    · have h1 : min (2 ^ (n - 1)) 10 ≤ 10 := Nat.min_le_right _ _
      omega
  · unfold call_tool callToolAux
    rw [h1]
  · unfold _extract_result
    rw [hr]
    exact ⟨_, rfl⟩
  · have hc : call_tool oracle = (Except.error (typedErrorOf e3),
        [waitSeconds 1, waitSeconds 2]) := by
      simp [call_tool, callToolAux, h1, h2, h3]
    rw [hc]
    rfl
  · unfold call_tool_with_session
    rw [h1]
  · unfold call_tool_with_session
    rw [h1]

/-- Witness for C5's amended theorem: exhausting three timeouts yields
the typed timeout error after sleeps of 1 s and 2 s. -/
theorem c5_witness :
    call_tool (fun _ => AttemptOutcome.transport TransportFailure.timeout)
      = (Except.error (typedErrorOf TransportFailure.timeout), [1, 2]) :=
  (c5_retry_and_tagged_errors _).2.2.2.1 _ _ _ rfl rfl rfl

/-! ## C9 — the SUFFICIENT token and evaluation feedback (corrected) -/

/-- **C9 counterexample**: a response beginning with the lower-case word
`sufficient` is marked complete although it does not begin with the
token `SUFFICIENT` — the source upper-cases the first line before the
prefix test, so the check is case-insensitive. -/
theorem c9_counterexample_lowercase_marked_complete :
    _evaluate_results ("sufficient evidence found".data) none
        = FeedbackParse.ok (true, none)
    ∧ ("SUFFICIENT".data).isPrefixOf
        ("sufficient evidence found".data) = false := by
  exact ⟨by rfl, by decide⟩

/-- **C9 theorem (amended)**: the investigation is marked complete
exactly when the upper-cased first line of the response begins with
`SUFFICIENT` (a case-insensitive prefix test), and then no feedback is
stored.  When it is not marked complete: if the feedback parse returns
(including the text-reasoning fallback on JSON extraction or
`json.loads` failure) the feedback is stored, carrying exactly the
plan's PromQL then LogQL queries as `previous_queries_attempted`; if the
extracted JSON parses to a non-dict, the feedback parse raises uncaught,
the stage crashes, and nothing is stored. -/
theorem c9_sufficient_prefix_and_feedback (content : Str)
    (plan : Option InvestigationPlan) :
    (∀ r, _evaluate_results content plan = FeedbackParse.ok r →
      (r.1 = true ↔
        ("SUFFICIENT".data).isPrefixOf (firstLineUpper content) = true))
    ∧ (("SUFFICIENT".data).isPrefixOf (firstLineUpper content) = true →
        _evaluate_results content plan = FeedbackParse.ok (true, none))
    ∧ (("SUFFICIENT".data).isPrefixOf (firstLineUpper content) = false →
        (∀ fb, _parse_evaluation_feedback content (previousQueriesOf plan)
            = FeedbackParse.ok fb →
          _evaluate_results content plan = FeedbackParse.ok (false, some fb))
        ∧ (_parse_evaluation_feedback content (previousQueriesOf plan)
            = FeedbackParse.uncaught →
          _evaluate_results content plan = FeedbackParse.uncaught))
    ∧ (∀ qs fb, _parse_evaluation_feedback content qs = FeedbackParse.ok fb →
        fb.previous_queries_attempted = qs)
    ∧ (∀ qs, _extract_json content = none →
        _parse_evaluation_feedback content qs
          = FeedbackParse.ok (feedbackTextFallback content qs))
    ∧ (∀ qs js xs, _extract_json content = some js →
        json_loads js = some (Json.arr xs) →
        _parse_evaluation_feedback content qs = FeedbackParse.uncaught) := by
  refine ⟨fun r hr => ?_, fun ht => ?_, fun hf => ⟨fun fb hfb => ?_, fun hu => ?_⟩,
    fun qs fb h => ?_, fun qs hx => ?_, fun qs js xs hx hl => ?_⟩
  · unfold _evaluate_results at hr
    by_cases hp : ("SUFFICIENT".data).isPrefixOf (firstLineUpper content) = true
    · rw [if_pos hp] at hr
      injection hr with hr'
      rw [← hr']
      simp [hp]
    · rw [if_neg hp] at hr
      simp only [Bool.not_eq_true] at hp
      cases hq : _parse_evaluation_feedback content (previousQueriesOf plan) with
      | ok fb => rw [hq] at hr; injection hr with hr'; rw [← hr']; simp [hp]
      | uncaught => rw [hq] at hr; exact absurd hr (by simp)
  · unfold _evaluate_results
    rw [if_pos ht]
  · unfold _evaluate_results
    rw [if_neg (by simp [hf]), hfb]
  · unfold _evaluate_results
    rw [if_neg (by simp [hf]), hu]
  · unfold _parse_evaluation_feedback at h
    cases hx : _extract_json content with
    | none =>
      rw [hx] at h
      injection h with h'
      rw [← h']
      rfl
    | some js =>
      rw [hx] at h
      dsimp only at h
      cases hl : json_loads js with
      | none =>
        rw [hl] at h
        injection h with h'
        rw [← h']
        rfl
      | some j =>
        rw [hl] at h
        cases j with
        | obj d => injection h with h'; rw [← h']
        | null => exact absurd h (by simp)
        | bool b => exact absurd h (by simp)
        | num q => exact absurd h (by simp)
        | str s => exact absurd h (by simp)
        | arr xs => exact absurd h (by simp)
  · unfold _parse_evaluation_feedback
    rw [hx]
  · unfold _parse_evaluation_feedback
    rw [hx]
    dsimp only
    rw [hl]

/-- Witness for C9's amended theorem: an `INSUFFICIENT` response (no
JSON in it) is not marked complete and stores the text-fallback feedback
carrying the plan's queries. -/
theorem c9_witness :
    _evaluate_results ("INSUFFICIENT\nmore data needed".data)
        (some { promql_queries := ["up".data] })
      = FeedbackParse.ok (false, some (feedbackTextFallback
          ("INSUFFICIENT\nmore data needed".data) ["up".data])) := by
  have hthm := c9_sufficient_prefix_and_feedback
    ("INSUFFICIENT\nmore data needed".data)
    (some { promql_queries := ["up".data] })
  have hparse := hthm.2.2.2.2.1 ["up".data] rfl
  exact (hthm.2.2.1 (by decide)).1 _ hparse

/-! ## C7 — foreign-syntax queries: rejected, yet auto-correctable
(corrected) -/

/-- A detected `\bAND\b` heads the `SQL_PATTERNS` hit list (helper for
C7). -/
theorem sqlPatternHits_head_and (s : Str)
    (h : searchWordCI ("AND".data) none s = true) :
    ∃ l, sqlPatternHits s = SqlPat.sqlAnd :: l := by
  unfold sqlPatternHits
  rw [if_pos h]
  exact ⟨_, rfl⟩

/-- **C7 counterexample**: the rejection does *not* stand through
auto-correction — `validate_and_fix` silently turns the SQL-style logs
query into the accepted corrected query `{job="x", level="error"}` with a
clean (valid, error-free) result. -/
theorem c7_counterexample_corrected_accepted :
    (validate_and_fix ("job='x' AND level='error'".data) QueryType.logql).1
        = ("\x7bjob=\"x\", level=\"error\"\x7d".data)
    ∧ (validate_and_fix ("job='x' AND level='error'".data)
        QueryType.logql).2.is_valid = true
    ∧ (validate_and_fix ("job='x' AND level='error'".data)
        QueryType.logql).2.errors = [] := by
  exact ⟨by decide, by decide, by decide⟩

/-- **C7 theorem (amended)**: `validate`/`validate_logql` rejects
`"job='x' AND level='error'"` with a foreign-syntax (SQL `AND`) error —
and, in general, any query in which `\bAND\b` fires is reported invalid
by both validators — but the rejection stands only pre-correction: the
auto-correction loop may repair such a query, and `validate_and_fix`
then returns the corrected, re-validated query as accepted. -/
theorem c7_foreign_syntax_always_error_pre_correction :
    ((validate_logql ("job='x' AND level='error'".data)).is_valid = false
      ∧ QError.sqlSyntax SqlPat.sqlAnd
          ∈ (validate_logql ("job='x' AND level='error'".data)).errors)
    ∧ (∀ q : Str, searchWordCI ("AND".data) none (pyStrip q) = true →
        (validate_logql q).is_valid = false
        ∧ (validate_promql q).is_valid = false)
    ∧ (validate_and_fix ("job='x' AND level='error'".data)
        QueryType.logql).2.is_valid = true := by
  refine ⟨⟨by decide, by decide⟩, fun q h => ?_, by decide⟩
  have he : ¬ (pyStrip q = []) := by
    intro h0
    rw [h0] at h
    exact absurd h (by decide)
  obtain ⟨l, hl⟩ := sqlPatternHits_head_and (pyStrip q) h
  constructor
  · simp [validate_logql, he, hl]
  · simp [validate_promql, he, hl]

/-- Witness for C7's amended theorem on another SQL-style query. -/
theorem c7_witness :
    (validate_logql ("pod='a' AND ns='b'".data)).is_valid = false :=
  (c7_foreign_syntax_always_error_pre_correction.2.1 _ (by decide)).1

/-! ## C1 — sanitization before validation; placeholder queries skipped -/

/-- Unfolding equation of `_validate_query_list` on a cons cell (helper
for C1). -/
theorem validate_query_list_cons (qt : QueryType) (q : Str)
    (rest : List Str) :
    _validate_query_list (q :: rest) qt
      = (match processQuery qt q with
         | QueryOutcome.skipped => _validate_query_list rest qt
         | QueryOutcome.valid v =>
           (v :: (_validate_query_list rest qt).1,
            (_validate_query_list rest qt).2)
         | QueryOutcome.invalid o errs =>
           ((_validate_query_list rest qt).1,
            (o, errs) :: (_validate_query_list rest qt).2)) := rfl

/-- A query whose sanitized form holds a template-variable placeholder is
skipped (helper for C1). -/
theorem processQuery_skipped_of_grafana (qt : QueryType) (q : Str)
    (h : contains_grafana_variables (sanitize_query q qt).1 = true) :
    processQuery qt q = QueryOutcome.skipped := by
  unfold processQuery
  rw [if_pos h]

/-- A query accepted into the valid list was validated in its sanitized
form, or is the re-validated auto-correction of it (helper for C1). -/
theorem processQuery_valid_spec (qt : QueryType) (q v : Str)
    (h : processQuery qt q = QueryOutcome.valid v) :
    (validateFnFor qt v).is_valid = true
    ∧ contains_grafana_variables (sanitize_query q qt).1 = false
    ∧ (v = (sanitize_query q qt).1
       ∨ (validateFnFor qt (sanitize_query q qt).1).corrected_query
           = some v) := by
  simp only [processQuery] at h
  split at h
  · next hg => simp at h
  · next hg =>
    have hgf : contains_grafana_variables (sanitize_query q qt).1 = false := by
      simpa using hg
    split at h
    · next hvalid =>
      injection h with hv
      exact ⟨hv ▸ hvalid, hgf, Or.inl hv.symm⟩
    · next hnvalid =>
      cases hcq : (validateFnFor qt (sanitize_query q qt).1).corrected_query with
      | none => rw [hcq] at h; simp at h
      | some cq =>
        rw [hcq] at h
        dsimp only at h
        by_cases hcv : (validateFnFor qt cq).is_valid = true
        · rw [if_pos hcv] at h
          injection h with hv
          exact ⟨hv ▸ hcv, hgf, Or.inr (by rw [hv])⟩
        · rw [if_neg hcv] at h
          simp at h

/-- **C1** (confirmed; `sanitize_query` and
`contains_grafana_variables` are modelled from the spec, see their
definitions): `_validate_query_list` sanitizes every query before
validation — queries whose sanitized form contains a template-variable
placeholder are skipped entirely (dropping them from the input changes
nothing), the placeholder is detected but not stripped (sanitization
preserves it) and flagged as a warning, and every query reaching the
valid (to-be-executed) list passed validation in its sanitized or
re-validated corrected form, never as-is. -/
theorem c1_sanitize_before_validation (query_type : QueryType) :
    (∀ qs : List Str,
      _validate_query_list qs query_type
        = _validate_query_list
            (qs.filter (fun q =>
              !contains_grafana_variables (sanitize_query q query_type).1))
            query_type)
    ∧ (∀ q : Str, contains_grafana_variables (sanitize_query q query_type).1
        = contains_grafana_variables q)
    ∧ (∀ q : Str, contains_grafana_variables (sanitize_query q query_type).1
          = true →
        QWarning.grafanaVariableDetected ∈ (sanitize_query q query_type).2)
    ∧ (∀ (qs : List Str) (v : Str),
        v ∈ (_validate_query_list qs query_type).1 →
        (validateFnFor query_type v).is_valid = true
        ∧ ∃ q ∈ qs,
            contains_grafana_variables (sanitize_query q query_type).1 = false
            ∧ (v = (sanitize_query q query_type).1
               ∨ (validateFnFor query_type
                    (sanitize_query q query_type).1).corrected_query
                   = some v)) := by
  refine ⟨fun qs => ?_, fun q => ?_, fun q h => ?_, fun qs => ?_⟩
  · induction qs with
    | nil => rfl
    | cons q rest ih =>
      rw [validate_query_list_cons, List.filter_cons]
      by_cases hg : contains_grafana_variables (sanitize_query q query_type).1
          = true
      · rw [processQuery_skipped_of_grafana query_type q hg]
        simp only [hg, Bool.not_true, Bool.false_eq_true, if_false]
        exact ih
      · have hgf : contains_grafana_variables (sanitize_query q query_type).1
            = false := by simpa using hg
        simp only [hgf, Bool.not_false, if_true]
        rw [validate_query_list_cons]
        cases hpq : processQuery query_type q <;> rw [ih]
  · show contains_grafana_variables (collapseDoubleBraces q)
      = contains_grafana_variables q
    unfold contains_grafana_variables
    induction q using collapseDoubleBraces.induct <;>
      simp [collapseDoubleBraces, *]
  · unfold sanitize_query at h ⊢
    simp only at h ⊢
    rw [h]
    simp
  · induction qs with
    | nil =>
      intro v hv
      simp [_validate_query_list] at hv
    | cons q rest ih =>
      intro v hv
      rw [validate_query_list_cons] at hv
      cases hpq : processQuery query_type q with
      | skipped =>
        rw [hpq] at hv
        obtain ⟨hval, q', hq', hspec⟩ := ih v hv
        exact ⟨hval, q', List.mem_cons_of_mem _ hq', hspec⟩
      | valid w =>
        rw [hpq] at hv
        simp only [List.mem_cons] at hv
        cases hv with
        | inl hvw =>
          subst hvw
          obtain ⟨hval, hgf, hform⟩ := processQuery_valid_spec _ _ _ hpq
          exact ⟨hval, q, List.mem_cons_self _ _, hgf, hform⟩
        | inr hvrest =>
          obtain ⟨hval, q', hq', hspec⟩ := ih v hvrest
          exact ⟨hval, q', List.mem_cons_of_mem _ hq', hspec⟩
      | invalid o errs =>
        rw [hpq] at hv
        obtain ⟨hval, q', hq', hspec⟩ := ih v hv
        exact ⟨hval, q', List.mem_cons_of_mem _ hq', hspec⟩

/-- Witness for C1: a placeholder query is dropped without affecting
validation, its placeholder is flagged, and the accepted entry of a
mixed batch passed validation sanitized. -/
theorem c1_witness :
    _validate_query_list
        (["up", "rate($var[5m])"].map String.data) QueryType.promql
      = _validate_query_list (["up"].map String.data) QueryType.promql
    ∧ QWarning.grafanaVariableDetected
        ∈ (sanitize_query ("rate($var[5m])".data) QueryType.promql).2 := by
  constructor
  · have h := (c1_sanitize_before_validation QueryType.promql).1
      (["up", "rate($var[5m])"].map String.data)
    rw [show ((["up", "rate($var[5m])"].map String.data).filter (fun q =>
        !contains_grafana_variables
          (sanitize_query q QueryType.promql).1))
        = (["up"].map String.data) from by decide] at h
    exact h
  · exact (c1_sanitize_before_validation QueryType.promql).2.2.1 _ (by decide)

end AIAgentMonitoring
